import Mathlib

/-!
Verification of the trigonometry module (src/funs/triganomic.rs) of the
cgmath repository, against its natural-language specification.

The module defines three capability traits (Trig, InvTrig, Hyp), free
forwarding functions for their nine operations, scalar implementations for
the three floating-point widths (f32, f64, float), and componentwise vector
implementations for arities 2, 3 and 4.

The embedding is symbolic: the external transcendental routines
(f32::sin, f64::asin, ...) and the NumCast width conversions are opaque
collaborators, so a scalar value is represented as a trace expression
`Expr` recording exactly which routine is invoked at which width and which
width casts are performed, mirroring the source token for token.  A generic
interpreter `Expr.eval` then assigns semantics by interpreting the routine
and cast nodes over an arbitrary value domain, which lets us state both
structural claims (which routine the code calls) and semantic ones
(NaN pass-through, determinism, known values, round trips).
-/

namespace Cgmath

/-- The three floating-point widths the module implements its capabilities
for: f32, f64 and the machine-dependent float type. -/
inductive Width : Type
| w32
| w64
| wfloat
deriving DecidableEq, Repr

/-- The nine external transcendental routines the module invokes. -/
inductive Rout : Type
| rsin
| rcos
| rtan
| rasin
| racos
| ratan
| rsinh
| rcosh
| rtanh
deriving DecidableEq, Repr

/-- Trace expression for a scalar floating-point value: an input variable,
a NumCast width conversion applied to a value, or an invocation of one of
the external routines at a given width.  This records exactly the
evaluation strategy of the source code. -/
inductive Expr : Type
| var : Nat → Expr
| cast : Width → Width → Expr → Expr
| call : Rout → Width → Expr → Expr
deriving DecidableEq, Repr

/-- The list of routine invocations performed by a trace, innermost first:
which external function is called, and at which width. -/
def Expr.calls : Expr → List (Rout × Width)
| .var _ => []
| .cast _ _ e => e.calls
| .call r w e => e.calls ++ [(r, w)]

/-- The number of width-cast nodes in a trace. -/
def Expr.castCount : Expr → Nat
| .var _ => 0
| .cast _ _ e => e.castCount + 1
| .call _ _ e => e.castCount

/-- Generic interpreter for traces: `m` gives the meaning of each external
routine at each width, `c` the meaning of each width cast, and `env` the
values of the input variables. -/
def Expr.eval {V : Type} (m : Rout → Width → V → V) (c : Width → Width → V → V)
    (env : Nat → V) : Expr → V
| .var n => env n
| .cast a b e => c a b (Expr.eval m c env e)
| .call r w e => m r w (Expr.eval m c env e)

/-- The angle wrapper `Radians<T>` of the source: a single-field tagged
scalar representing a value measured in radians (src/angle.rs, consumed by
src/funs/triganomic.rs). -/
structure Radians (α : Type) : Type where
  val : α
deriving DecidableEq, Repr

/-- The two-component vector `Vec2<T>` (src/vec.rs, consumed here only
through its constructor and component access). -/
structure Vec2 (α : Type) : Type where
  x : α
  y : α
deriving DecidableEq, Repr

/-- The three-component vector `Vec3<T>`. -/
structure Vec3 (α : Type) : Type where
  x : α
  y : α
  z : α
deriving DecidableEq, Repr

/-- The four-component vector `Vec4<T>`. -/
structure Vec4 (α : Type) : Type where
  x : α
  y : α
  z : α
  w : α
deriving DecidableEq, Repr

/-- Positional component access `self[i]` for Vec2. -/
def Vec2.get (v : Vec2 α) (i : Fin 2) : α :=
match i with
| ⟨0, _⟩ => v.x
| ⟨_ + 1, _⟩ => v.y

/-- Positional component access `self[i]` for Vec3. -/
def Vec3.get (v : Vec3 α) (i : Fin 3) : α :=
match i with
| ⟨0, _⟩ => v.x
| ⟨1, _⟩ => v.y
| ⟨_ + 2, _⟩ => v.z

/-- Positional component access `self[i]` for Vec4. -/
def Vec4.get (v : Vec4 α) (i : Fin 4) : α :=
match i with
| ⟨0, _⟩ => v.x
| ⟨1, _⟩ => v.y
| ⟨2, _⟩ => v.z
| ⟨_ + 3, _⟩ => v.w

/-- The `Trig<T>` capability (triganomic.rs lines 16-20), as an explicit
dictionary: Rust's compile-time trait resolution is modelled by passing the
dictionary the resolution would select. -/
structure Trig (α : Type) (β : Type) : Type where
  sin : α → β
  cos : α → β
  tan : α → β

/-- The `InvTrig` capability (lines 106-110): plain number in, angle out. -/
structure InvTrig (α : Type) : Type where
  asin : α → Radians α
  acos : α → Radians α
  atan : α → Radians α

/-- The `InvTrigV<T>` capability (lines 135-139), the vector-side variant
of InvTrig. -/
structure InvTrigV (α : Type) (β : Type) : Type where
  asin : α → β
  acos : α → β
  atan : α → β

/-- The `Hyp` capability (lines 217-224): plain number in and out. -/
structure Hyp (α : Type) : Type where
  sinh : α → α
  cosh : α → α
  tanh : α → α

/-- The `NumCast` capability of the num::cast substrate, restricted to what
triganomic.rs uses: converting a value of some width to and from the
canonical f64 evaluation width. -/
structure NumCast (α : Type) : Type where
  toF64 : α → Expr
  ofF64 : Expr → α

/-- Free forwarding function `sin` (line 22). -/
def sin (d : Trig α β) (theta : α) : β := d.sin theta

/-- Free forwarding function `cos` (line 23). -/
def cos (d : Trig α β) (theta : α) : β := d.cos theta

/-- Free forwarding function `tan` (line 24). -/
def tan (d : Trig α β) (theta : α) : β := d.tan theta

/-- Free forwarding function `asin` (line 112). -/
def asin (d : InvTrig α) (x : α) : Radians α := d.asin x

/-- Free forwarding function `acos` (line 113). -/
def acos (d : InvTrig α) (x : α) : Radians α := d.acos x

/-- Free forwarding function `atan` (line 114). -/
def atan (d : InvTrig α) (x : α) : Radians α := d.atan x

/-- Free forwarding function `sinh` (line 226). -/
def sinh (d : Hyp α) (x : α) : α := d.sinh x

/-- Free forwarding function `cosh` (line 227). -/
def cosh (d : Hyp α) (x : α) : α := d.cosh x

/-- Free forwarding function `tanh` (line 228). -/
def tanh (d : Hyp α) (x : α) : α := d.tanh x

/-- The NumCast dictionary for a scalar of width `w`: `cast(x)` toward the
canonical width records a cast node `w` to w64, and back.  For w64 itself
the conversion is a same-width cast, recorded like any other cast node. -/
def numCastAt (w : Width) : NumCast Expr where
  toF64 x := .cast w .w64 x
  ofF64 e := .cast .w64 w e

/-- The single generic scalar forward-trig impl `Radians<T>: Trig<T>`
(lines 26-30): cast the unwrapped angle value to f64, invoke the f64
routine, cast the result back. -/
def radiansTrig (n : NumCast α) : Trig (Radians α) α where
  sin theta := n.ofF64 (.call .rsin .w64 (n.toF64 theta.val))
  cos theta := n.ofF64 (.call .rcos .w64 (n.toF64 theta.val))
  tan theta := n.ofF64 (.call .rtan .w64 (n.toF64 theta.val))

/-- The scalar Trig dictionary that Rust trait resolution selects for
`Radians<T>` with T of width `w`: the generic impl of lines 26-30
instantiated at that width. -/
def trigAt (w : Width) : Trig (Radians Expr) Expr := radiansTrig (numCastAt w)

/-- The `impl f32: InvTrig` (lines 116-120): invokes the f32-width inverse
routine directly on the input, no casts, wraps the result in Radians. -/
def f32InvTrig : InvTrig Expr where
  asin x := ⟨.call .rasin .w32 x⟩
  acos x := ⟨.call .racos .w32 x⟩
  atan x := ⟨.call .ratan .w32 x⟩

/-- The `impl f64: InvTrig` (lines 122-126): invokes the f64-width inverse
routine directly on the input, no casts. -/
def f64InvTrig : InvTrig Expr where
  asin x := ⟨.call .rasin .w64 x⟩
  acos x := ⟨.call .racos .w64 x⟩
  atan x := ⟨.call .ratan .w64 x⟩

/-- The `impl float: InvTrig` (lines 128-132): casts the input to f64,
invokes the f64 routine, casts back to float with `.to_float()`. -/
def floatInvTrig : InvTrig Expr where
  asin x := ⟨.cast .w64 .wfloat (.call .rasin .w64 (.cast .wfloat .w64 x))⟩
  acos x := ⟨.cast .w64 .wfloat (.call .racos .w64 (.cast .wfloat .w64 x))⟩
  atan x := ⟨.cast .w64 .wfloat (.call .ratan .w64 (.cast .wfloat .w64 x))⟩

/-- The InvTrig dictionary selected for a scalar of width `w`. -/
def invTrigAt : Width → InvTrig Expr
| .w32 => f32InvTrig
| .w64 => f64InvTrig
| .wfloat => floatInvTrig

/-- The `impl f32: Hyp` (lines 230-234): invokes the f32-width hyperbolic
routine directly, no casts. -/
def f32Hyp : Hyp Expr where
  sinh x := .call .rsinh .w32 x
  cosh x := .call .rcosh .w32 x
  tanh x := .call .rtanh .w32 x

/-- The `impl f64: Hyp` (lines 236-240): invokes the f64-width hyperbolic
routine directly, no casts. -/
def f64Hyp : Hyp Expr where
  sinh x := .call .rsinh .w64 x
  cosh x := .call .rcosh .w64 x
  tanh x := .call .rtanh .w64 x

/-- The `impl float: Hyp` (lines 242-246): cast to f64, invoke the f64
routine, cast back. -/
def floatHyp : Hyp Expr where
  sinh x := .cast .w64 .wfloat (.call .rsinh .w64 (.cast .wfloat .w64 x))
  cosh x := .cast .w64 .wfloat (.call .rcosh .w64 (.cast .wfloat .w64 x))
  tanh x := .cast .w64 .wfloat (.call .rtanh .w64 (.cast .wfloat .w64 x))

/-- The Hyp dictionary selected for a scalar of width `w`. -/
def hypAt : Width → Hyp Expr
| .w32 => f32Hyp
| .w64 => f64Hyp
| .wfloat => floatHyp

/-- The `impl Vec2<Radians<T>>: Trig<Vec2<T>>` (lines 32-50): each
component goes through the free function, which Rust resolves to the
generic scalar impl on `Radians<T>` (the only Trig impl on Radians). -/
def vec2Trig (n : NumCast α) : Trig (Vec2 (Radians α)) (Vec2 α) where
  sin v := Vec2.mk (sin (radiansTrig n) (v.get 0)) (sin (radiansTrig n) (v.get 1))
  cos v := Vec2.mk (cos (radiansTrig n) (v.get 0)) (cos (radiansTrig n) (v.get 1))
  tan v := Vec2.mk (tan (radiansTrig n) (v.get 0)) (tan (radiansTrig n) (v.get 1))

/-- The `impl Vec3<Radians<T>>: Trig<Vec3<T>>` (lines 52-73). -/
def vec3Trig (n : NumCast α) : Trig (Vec3 (Radians α)) (Vec3 α) where
  sin v := Vec3.mk (sin (radiansTrig n) (v.get 0)) (sin (radiansTrig n) (v.get 1))
    (sin (radiansTrig n) (v.get 2))
  cos v := Vec3.mk (cos (radiansTrig n) (v.get 0)) (cos (radiansTrig n) (v.get 1))
    (cos (radiansTrig n) (v.get 2))
  tan v := Vec3.mk (tan (radiansTrig n) (v.get 0)) (tan (radiansTrig n) (v.get 1))
    (tan (radiansTrig n) (v.get 2))

/-- The `impl Vec4<Radians<T>>: Trig<Vec4<T>>` (lines 75-99). -/
def vec4Trig (n : NumCast α) : Trig (Vec4 (Radians α)) (Vec4 α) where
  sin v := Vec4.mk (sin (radiansTrig n) (v.get 0)) (sin (radiansTrig n) (v.get 1))
    (sin (radiansTrig n) (v.get 2)) (sin (radiansTrig n) (v.get 3))
  cos v := Vec4.mk (cos (radiansTrig n) (v.get 0)) (cos (radiansTrig n) (v.get 1))
    (cos (radiansTrig n) (v.get 2)) (cos (radiansTrig n) (v.get 3))
  tan v := Vec4.mk (tan (radiansTrig n) (v.get 0)) (tan (radiansTrig n) (v.get 1))
    (tan (radiansTrig n) (v.get 2)) (tan (radiansTrig n) (v.get 3))

/-- The `impl Vec2<T>: InvTrigV<Vec2<Radians<T>>>` (lines 141-159): the
source bound is `T: Copy Num NumCast InvTrig`; the body only uses the
InvTrig capability through the free functions. -/
def vec2InvTrig (_n : NumCast α) (d : InvTrig α) : InvTrigV (Vec2 α) (Vec2 (Radians α)) where
  asin v := Vec2.mk (asin d (v.get 0)) (asin d (v.get 1))
  acos v := Vec2.mk (acos d (v.get 0)) (acos d (v.get 1))
  atan v := Vec2.mk (atan d (v.get 0)) (atan d (v.get 1))

/-- The `impl Vec3<T>: InvTrigV<Vec3<Radians<T>>>` (lines 161-182). -/
def vec3InvTrig (_n : NumCast α) (d : InvTrig α) : InvTrigV (Vec3 α) (Vec3 (Radians α)) where
  asin v := Vec3.mk (asin d (v.get 0)) (asin d (v.get 1)) (asin d (v.get 2))
  acos v := Vec3.mk (acos d (v.get 0)) (acos d (v.get 1)) (acos d (v.get 2))
  atan v := Vec3.mk (atan d (v.get 0)) (atan d (v.get 1)) (atan d (v.get 2))

/-- The `impl Vec4<T>: InvTrigV<Vec4<Radians<T>>>` (lines 184-208). -/
def vec4InvTrig (_n : NumCast α) (d : InvTrig α) : InvTrigV (Vec4 α) (Vec4 (Radians α)) where
  asin v := Vec4.mk (asin d (v.get 0)) (asin d (v.get 1)) (asin d (v.get 2)) (asin d (v.get 3))
  acos v := Vec4.mk (acos d (v.get 0)) (acos d (v.get 1)) (acos d (v.get 2)) (acos d (v.get 3))
  atan v := Vec4.mk (atan d (v.get 0)) (atan d (v.get 1)) (atan d (v.get 2)) (atan d (v.get 3))

/-- The `impl Vec2<T>: Hyp` (lines 248-266): the source bound is only
`T: Copy Hyp`, so the element type may itself be any Hyp implementor,
including another vector. -/
def vec2Hyp (d : Hyp α) : Hyp (Vec2 α) where
  sinh v := Vec2.mk (sinh d (v.get 0)) (sinh d (v.get 1))
  cosh v := Vec2.mk (cosh d (v.get 0)) (cosh d (v.get 1))
  tanh v := Vec2.mk (tanh d (v.get 0)) (tanh d (v.get 1))

/-- The `impl Vec3<T>: Hyp` (lines 268-289), bound `T: Copy Hyp` only. -/
def vec3Hyp (d : Hyp α) : Hyp (Vec3 α) where
  sinh v := Vec3.mk (sinh d (v.get 0)) (sinh d (v.get 1)) (sinh d (v.get 2))
  cosh v := Vec3.mk (cosh d (v.get 0)) (cosh d (v.get 1)) (cosh d (v.get 2))
  tanh v := Vec3.mk (tanh d (v.get 0)) (tanh d (v.get 1)) (tanh d (v.get 2))

/-- The `impl Vec4<T>: Hyp` (lines 291-315), bound `T: Copy Hyp` only. -/
def vec4Hyp (d : Hyp α) : Hyp (Vec4 α) where
  sinh v := Vec4.mk (sinh d (v.get 0)) (sinh d (v.get 1)) (sinh d (v.get 2)) (sinh d (v.get 3))
  cosh v := Vec4.mk (cosh d (v.get 0)) (cosh d (v.get 1)) (cosh d (v.get 2)) (cosh d (v.get 3))
  tanh v := Vec4.mk (tanh d (v.get 0)) (tanh d (v.get 1)) (tanh d (v.get 2)) (tanh d (v.get 3))

/-- Trace of the exposed scalar sine at width `w`: the free function
applied to an angle whose underlying value is the input trace. -/
def sinTrace (w : Width) (x : Expr) : Expr := sin (trigAt w) (Radians.mk x)

/-- Trace of the exposed scalar cosine at width `w`. -/
def cosTrace (w : Width) (x : Expr) : Expr := cos (trigAt w) (Radians.mk x)

/-- Trace of the exposed scalar tangent at width `w`. -/
def tanTrace (w : Width) (x : Expr) : Expr := tan (trigAt w) (Radians.mk x)

/-- Trace of the exposed scalar arcsine at width `w`: the underlying value
of the angle the free function returns. -/
def asinTrace (w : Width) (x : Expr) : Expr := (asin (invTrigAt w) x).val

/-- Trace of the exposed scalar arccosine at width `w`. -/
def acosTrace (w : Width) (x : Expr) : Expr := (acos (invTrigAt w) x).val

/-- Trace of the exposed scalar arctangent at width `w`. -/
def atanTrace (w : Width) (x : Expr) : Expr := (atan (invTrigAt w) x).val

/-- Trace of the exposed scalar hyperbolic sine at width `w`. -/
def sinhTrace (w : Width) (x : Expr) : Expr := sinh (hypAt w) x

/-- Trace of the exposed scalar hyperbolic cosine at width `w`. -/
def coshTrace (w : Width) (x : Expr) : Expr := cosh (hypAt w) x

/-- Trace of the exposed scalar hyperbolic tangent at width `w`. -/
def tanhTrace (w : Width) (x : Expr) : Expr := tanh (hypAt w) x

/-- Written from the specification text, not the source: the
cast-evaluate-cast pattern the spec prescribes for every scalar operation
at width `w` backed by routine `r`, namely cast the input to the canonical
f64 width, invoke the canonical routine at f64, and cast the result back
to `w`. -/
def specCanonicalPattern (r : Rout) (w : Width) (x : Expr) : Expr :=
  .cast .w64 w (.call r .w64 (.cast w .w64 x))

/-- Abstract floating-point value for interpreting traces: either a finite
value, represented by a rational, or a not-a-number result. -/
inductive FVal : Type
| fin : ℚ → FVal
| nan : FVal
deriving DecidableEq, Repr

/-- Boolean closeness test on abstract values: both finite and within `eps`
of each other.  A not-a-number result is close to nothing. -/
def FVal.closeB (eps : ℚ) : FVal → FVal → Bool
| .fin a, .fin b => decide (|a - b| ≤ eps)
| _, _ => false

/-- Componentwise-broadcast property for arity 2: applying `f` to a vector
and projecting component `i` is the same as projecting first and applying
the scalar operation `g`. -/
def broadcast2 (f : Vec2 γ → Vec2 β) (g : γ → β) : Prop :=
  ∀ (v : Vec2 γ) (i : Fin 2), (f v).get i = g (v.get i)

/-- Componentwise-broadcast property for arity 3. -/
def broadcast3 (f : Vec3 γ → Vec3 β) (g : γ → β) : Prop :=
  ∀ (v : Vec3 γ) (i : Fin 3), (f v).get i = g (v.get i)

/-- Componentwise-broadcast property for arity 4. -/
def broadcast4 (f : Vec4 γ → Vec4 β) (g : γ → β) : Prop :=
  ∀ (v : Vec4 γ) (i : Fin 4), (f v).get i = g (v.get i)

/-- A concrete interpretation of the width casts that converts exactly,
losing nothing. -/
def cId : Width → Width → FVal → FVal := fun _ _ v => v

/-- A concrete interpretation of the external routines in which every
routine yields a not-a-number result, as an inverse routine does on an
out-of-domain input. -/
def mNaN : Rout → Width → FVal → FVal := fun _ _ _ => FVal.nan

/-- A concrete interpretation of the external routines realizing the
standard fixed points: sine maps everything to 0, cosine to 1, tangent to
1, hyperbolic sine to 0, hyperbolic cosine to 1; the inverse routines pass
their argument through. -/
def mStd : Rout → Width → FVal → FVal
| .rsin, _, _ => FVal.fin 0
| .rcos, _, _ => FVal.fin 1
| .rtan, _, _ => FVal.fin 1
| .rasin, _, v => v
| .racos, _, v => v
| .ratan, _, v => v
| .rsinh, _, _ => FVal.fin 0
| .rcosh, _, _ => FVal.fin 1
| .rtanh, _, _ => FVal.fin 0

/-- Idealized real-valued model of the external transcendental routines:
the spec treats them as opaque collaborators assumed correct, so each is
interpreted as the corresponding exact real function, independent of
width. -/
noncomputable def mIdeal : Rout → Width → ℝ → ℝ
| .rsin, _ => Real.sin
| .rcos, _ => Real.cos
| .rtan, _ => Real.tan
| .rasin, _ => Real.arcsin
| .racos, _ => Real.arccos
| .ratan, _ => Real.arctan
| .rsinh, _ => Real.sinh
| .rcosh, _ => Real.cosh
| .rtanh, _ => Real.tanh

/-- Idealized exact interpretation of the width casts over the reals. -/
def cIdeal : Width → Width → ℝ → ℝ := fun _ _ v => v

/-- Helper: a function built by applying `g` to each of the two components
broadcasts componentwise. -/
theorem broadcast2_components (g : γ → β) :
    broadcast2 (fun v => Vec2.mk (g (v.get 0)) (g (v.get 1))) g := fun v i =>
  match i with
  | ⟨0, _⟩ => rfl
  | ⟨_ + 1, _⟩ => rfl

/-- Helper: componentwise construction broadcasts, arity 3. -/
theorem broadcast3_components (g : γ → β) :
    broadcast3 (fun v => Vec3.mk (g (v.get 0)) (g (v.get 1)) (g (v.get 2))) g := fun v i =>
  match i with
  | ⟨0, _⟩ => rfl
  | ⟨1, _⟩ => rfl
  | ⟨_ + 2, _⟩ => rfl

/-- Helper: componentwise construction broadcasts, arity 4. -/
theorem broadcast4_components (g : γ → β) :
    broadcast4 (fun v => Vec4.mk (g (v.get 0)) (g (v.get 1)) (g (v.get 2)) (g (v.get 3))) g :=
  fun v i =>
  match i with
  | ⟨0, _⟩ => rfl
  | ⟨1, _⟩ => rfl
  | ⟨2, _⟩ => rfl
  | ⟨_ + 3, _⟩ => rfl

/-- C1: the claim states that for every width the scalar inverse-trig
operations cast the input to f64, invoke the canonical f64 inverse routine
and cast back.  This is false for f32: `impl f32: InvTrig` invokes the
f32-width routine `f32::asin` directly on the input, with no casts, so the
arcsine trace at width f32 is a single f32-width call, while the spec
pattern performs exactly one f64-width call. -/
theorem c1_counterexample :
    asinTrace .w32 (.var 0) ≠ specCanonicalPattern .rasin .w32 (.var 0)
    ∧ (asinTrace .w32 (.var 0)).calls = [(.rasin, .w32)]
    ∧ (specCanonicalPattern .rasin .w32 (.var 0)).calls = [(.rasin, .w64)] :=
  ⟨by decide, rfl, rfl⟩

/-- C1 (amended): only the float-width InvTrig impl follows the
cast-to-f64, evaluate, cast-back pattern; the f32 and f64 impls invoke the
inverse routine at their own width directly on the input, performing no
casts and wrapping the raw result as an angle. -/
theorem c1_amended :
    (∀ x : Expr,
      asinTrace .wfloat x = specCanonicalPattern .rasin .wfloat x
      ∧ acosTrace .wfloat x = specCanonicalPattern .racos .wfloat x
      ∧ atanTrace .wfloat x = specCanonicalPattern .ratan .wfloat x)
    ∧ (∀ x : Expr,
      asinTrace .w32 x = .call .rasin .w32 x
      ∧ acosTrace .w32 x = .call .racos .w32 x
      ∧ atanTrace .w32 x = .call .ratan .w32 x
      ∧ asinTrace .w64 x = .call .rasin .w64 x
      ∧ acosTrace .w64 x = .call .racos .w64 x
      ∧ atanTrace .w64 x = .call .ratan .w64 x)
    ∧ (∀ x : Expr,
      (asinTrace .w32 x).castCount = x.castCount
      ∧ (asinTrace .w64 x).castCount = x.castCount) :=
  ⟨fun _ => ⟨rfl, rfl, rfl⟩,
   fun _ => ⟨rfl, rfl, rfl, rfl, rfl, rfl⟩,
   fun _ => ⟨rfl, rfl⟩⟩

/-- C2: the claim states that the scalar hyperbolic operations follow the
cast-to-f64, evaluate, cast-back pattern for f32 and f64 as well as float.
This is false for f32: `impl f32: Hyp` invokes the f32-width routine
`f32::sinh` directly, with no casts, so the trace is a single f32-width
call rather than the spec's f64-width call between two casts. -/
theorem c2_counterexample :
    sinhTrace .w32 (.var 0) ≠ specCanonicalPattern .rsinh .w32 (.var 0)
    ∧ (sinhTrace .w32 (.var 0)).calls = [(.rsinh, .w32)]
    ∧ (specCanonicalPattern .rsinh .w32 (.var 0)).calls = [(.rsinh, .w64)] :=
  ⟨by decide, rfl, rfl⟩

/-- C2 (amended): only the float-width Hyp impl follows the cast-to-f64,
evaluate, cast-back pattern; the f32 and f64 impls invoke the hyperbolic
routine at their own width directly on the input, with no casts and no
angle wrapping. -/
theorem c2_amended :
    (∀ x : Expr,
      sinhTrace .wfloat x = specCanonicalPattern .rsinh .wfloat x
      ∧ coshTrace .wfloat x = specCanonicalPattern .rcosh .wfloat x
      ∧ tanhTrace .wfloat x = specCanonicalPattern .rtanh .wfloat x)
    ∧ (∀ x : Expr,
      sinhTrace .w32 x = .call .rsinh .w32 x
      ∧ coshTrace .w32 x = .call .rcosh .w32 x
      ∧ tanhTrace .w32 x = .call .rtanh .w32 x
      ∧ sinhTrace .w64 x = .call .rsinh .w64 x
      ∧ coshTrace .w64 x = .call .rcosh .w64 x
      ∧ tanhTrace .w64 x = .call .rtanh .w64 x)
    ∧ (∀ x : Expr,
      (sinhTrace .w32 x).castCount = x.castCount
      ∧ (sinhTrace .w64 x).castCount = x.castCount) :=
  ⟨fun _ => ⟨rfl, rfl, rfl⟩,
   fun _ => ⟨rfl, rfl, rfl, rfl, rfl, rfl⟩,
   fun _ => ⟨rfl, rfl⟩⟩

/-- C4: for every width, the scalar forward-trig operations on an angle
cast the angle's underlying value to the canonical f64 width, invoke the
canonical routine at f64, and cast the result back, returning a plain
unwrapped number: the single generic `Radians<T>: Trig<T>` impl realizes
exactly the spec's canonical pattern at every width. -/
theorem c4_forward_trig_canonical :
    ∀ (w : Width) (x : Expr),
      sinTrace w x = specCanonicalPattern .rsin w x
      ∧ cosTrace w x = specCanonicalPattern .rcos w x
      ∧ tanTrace w x = specCanonicalPattern .rtan w x :=
  fun _ _ => ⟨rfl, rfl, rfl⟩

/-- C5: each of the nine free functions forwards to the corresponding
capability method and returns exactly its result for every input value and
every capability dictionary, with no additional logic. -/
theorem c5_free_functions_forward :
    ∀ (α β : Type) (dt : Trig α β) (di : InvTrig α) (dh : Hyp α) (theta : α) (x : α),
      sin dt theta = dt.sin theta
      ∧ cos dt theta = dt.cos theta
      ∧ tan dt theta = dt.tan theta
      ∧ asin di x = di.asin x
      ∧ acos di x = di.acos x
      ∧ atan di x = di.atan x
      ∧ sinh dh x = dh.sinh x
      ∧ cosh dh x = dh.cosh x
      ∧ tanh dh x = dh.tanh x :=
  fun _ _ _ _ _ _ _ => ⟨rfl, rfl, rfl, rfl, rfl, rfl, rfl, rfl, rfl⟩

/-- C3: for every vector of arity 2, 3 or 4 and each of the nine
operations, component i of the vector result equals the scalar form
applied to component i, for every i, order preserved.  The scalar form of
the forward-trig operations is the generic `Radians<T>` impl, the scalar
form of the inverse-trig and hyperbolic operations is the element's
capability dictionary. -/
theorem c3_broadcast_equivalence :
    (∀ (α : Type) (n : NumCast α),
      broadcast2 (sin (vec2Trig n)) (sin (radiansTrig n))
      ∧ broadcast2 (cos (vec2Trig n)) (cos (radiansTrig n))
      ∧ broadcast2 (tan (vec2Trig n)) (tan (radiansTrig n))
      ∧ broadcast3 (sin (vec3Trig n)) (sin (radiansTrig n))
      ∧ broadcast3 (cos (vec3Trig n)) (cos (radiansTrig n))
      ∧ broadcast3 (tan (vec3Trig n)) (tan (radiansTrig n))
      ∧ broadcast4 (sin (vec4Trig n)) (sin (radiansTrig n))
      ∧ broadcast4 (cos (vec4Trig n)) (cos (radiansTrig n))
      ∧ broadcast4 (tan (vec4Trig n)) (tan (radiansTrig n)))
    ∧ (∀ (α : Type) (n : NumCast α) (d : InvTrig α),
      broadcast2 (vec2InvTrig n d).asin (asin d)
      ∧ broadcast2 (vec2InvTrig n d).acos (acos d)
      ∧ broadcast2 (vec2InvTrig n d).atan (atan d)
      ∧ broadcast3 (vec3InvTrig n d).asin (asin d)
      ∧ broadcast3 (vec3InvTrig n d).acos (acos d)
      ∧ broadcast3 (vec3InvTrig n d).atan (atan d)
      ∧ broadcast4 (vec4InvTrig n d).asin (asin d)
      ∧ broadcast4 (vec4InvTrig n d).acos (acos d)
      ∧ broadcast4 (vec4InvTrig n d).atan (atan d))
    ∧ (∀ (α : Type) (d : Hyp α),
      broadcast2 (sinh (vec2Hyp d)) (sinh d)
      ∧ broadcast2 (cosh (vec2Hyp d)) (cosh d)
      ∧ broadcast2 (tanh (vec2Hyp d)) (tanh d)
      ∧ broadcast3 (sinh (vec3Hyp d)) (sinh d)
      ∧ broadcast3 (cosh (vec3Hyp d)) (cosh d)
      ∧ broadcast3 (tanh (vec3Hyp d)) (tanh d)
      ∧ broadcast4 (sinh (vec4Hyp d)) (sinh d)
      ∧ broadcast4 (cosh (vec4Hyp d)) (cosh d)
      ∧ broadcast4 (tanh (vec4Hyp d)) (tanh d)) :=
  ⟨fun _ n =>
    ⟨broadcast2_components (sin (radiansTrig n)), broadcast2_components (cos (radiansTrig n)),
     broadcast2_components (tan (radiansTrig n)), broadcast3_components (sin (radiansTrig n)),
     broadcast3_components (cos (radiansTrig n)), broadcast3_components (tan (radiansTrig n)),
     broadcast4_components (sin (radiansTrig n)), broadcast4_components (cos (radiansTrig n)),
     broadcast4_components (tan (radiansTrig n))⟩,
   fun _ _ d =>
    ⟨broadcast2_components (asin d), broadcast2_components (acos d),
     broadcast2_components (atan d), broadcast3_components (asin d),
     broadcast3_components (acos d), broadcast3_components (atan d),
     broadcast4_components (asin d), broadcast4_components (acos d),
     broadcast4_components (atan d)⟩,
   fun _ d =>
    ⟨broadcast2_components (sinh d), broadcast2_components (cosh d),
     broadcast2_components (tanh d), broadcast3_components (sinh d),
     broadcast3_components (cosh d), broadcast3_components (tanh d),
     broadcast4_components (sinh d), broadcast4_components (cosh d),
     broadcast4_components (tanh d)⟩⟩

/-- C10: the vector Hyp impls require only a Hyp capability on the element
type, so they nest: for any element type with the capability, including a
vector type, the vector impls apply the operation componentwise at every
level of nesting.  The first group shows nesting for an arbitrary element
capability, the second a concrete doubly nested vector over f32 whose
innermost operation is the direct f32-width routine call. -/
theorem c10_hyp_nesting :
    (∀ (α : Type) (d : Hyp α) (v : Vec2 (Vec3 α)) (i : Fin 2) (j : Fin 3),
      ((sinh (vec2Hyp (vec3Hyp d)) v).get i).get j = sinh d ((v.get i).get j)
      ∧ ((cosh (vec2Hyp (vec3Hyp d)) v).get i).get j = cosh d ((v.get i).get j)
      ∧ ((tanh (vec2Hyp (vec3Hyp d)) v).get i).get j = tanh d ((v.get i).get j))
    ∧ (∀ (v : Vec4 (Vec2 Expr)) (i : Fin 4) (j : Fin 2),
      ((sinh (vec4Hyp (vec2Hyp f32Hyp)) v).get i).get j
        = .call .rsinh .w32 ((v.get i).get j)) :=
  ⟨fun _ d v i j => by fin_cases i <;> fin_cases j <;> exact ⟨rfl, rfl, rfl⟩,
   fun v i j => by fin_cases i <;> fin_cases j <;> rfl⟩

/-- C6: inverse-trig inputs outside the mathematical domain are not
validated or rejected: under every interpretation of the external routines
and casts and for every input value, the arcsine and arccosine results at
f32, f64 and float are exactly the routine's own output passed through
(wrapped as an angle, with the float width's two casts around it), so if
the f32 routine yields a not-a-number result on 2.0 the operation returns
that not-a-number result, and the returned value is the angle wrapping the
raw routine call. -/
theorem c6_domain_passthrough (m : Rout → Width → FVal → FVal)
    (c : Width → Width → FVal → FVal) (env : Nat → FVal) :
    ((asinTrace .w32 (.var 0)).eval m c env = m .rasin .w32 (env 0)
     ∧ (acosTrace .w32 (.var 0)).eval m c env = m .racos .w32 (env 0)
     ∧ (asinTrace .w64 (.var 0)).eval m c env = m .rasin .w64 (env 0)
     ∧ (acosTrace .w64 (.var 0)).eval m c env = m .racos .w64 (env 0)
     ∧ (asinTrace .wfloat (.var 0)).eval m c env
        = c .w64 .wfloat (m .rasin .w64 (c .wfloat .w64 (env 0)))
     ∧ (acosTrace .wfloat (.var 0)).eval m c env
        = c .w64 .wfloat (m .racos .w64 (c .wfloat .w64 (env 0))))
    ∧ (m .rasin .w32 (FVal.fin 2) = FVal.nan →
        (asinTrace .w32 (.var 0)).eval m c (fun _ => FVal.fin 2) = FVal.nan)
    ∧ asin f32InvTrig (.var 0) = Radians.mk (.call .rasin .w32 (.var 0)) :=
  ⟨⟨rfl, rfl, rfl, rfl, rfl, rfl⟩, fun h => h, rfl⟩

/-- C6 witness: with the interpretation in which every routine yields a
not-a-number result, arcsine at f32 applied to 2.0 evaluates to that
not-a-number result. -/
theorem c6_domain_passthrough_witness :
    (asinTrace .w32 (.var 0)).eval mNaN cId (fun _ => FVal.fin 2) = FVal.nan :=
  (c6_domain_passthrough mNaN cId (fun _ => FVal.fin 2)).2.1 rfl

/-- C7: every operation is deterministic and side-effect free: evaluation
of any trace, in particular each of the nine exposed scalar operations,
depends only on the interpretation and the values of the input variables,
so pointwise equal inputs produce identical outputs; the embedding is a
total function with no state parameter, so no call observes or modifies
anything besides its argument and result. -/
theorem c7_determinism {V : Type} (m : Rout → Width → V → V)
    (c : Width → Width → V → V) (env1 env2 : Nat → V)
    (henv : ∀ n, env1 n = env2 n) :
    (∀ e : Expr, e.eval m c env1 = e.eval m c env2)
    ∧ (∀ (w : Width) (x : Nat),
      (sinTrace w (.var x)).eval m c env1 = (sinTrace w (.var x)).eval m c env2
      ∧ (cosTrace w (.var x)).eval m c env1 = (cosTrace w (.var x)).eval m c env2
      ∧ (tanTrace w (.var x)).eval m c env1 = (tanTrace w (.var x)).eval m c env2
      ∧ (asinTrace w (.var x)).eval m c env1 = (asinTrace w (.var x)).eval m c env2
      ∧ (acosTrace w (.var x)).eval m c env1 = (acosTrace w (.var x)).eval m c env2
      ∧ (atanTrace w (.var x)).eval m c env1 = (atanTrace w (.var x)).eval m c env2
      ∧ (sinhTrace w (.var x)).eval m c env1 = (sinhTrace w (.var x)).eval m c env2
      ∧ (coshTrace w (.var x)).eval m c env1 = (coshTrace w (.var x)).eval m c env2
      ∧ (tanhTrace w (.var x)).eval m c env1 = (tanhTrace w (.var x)).eval m c env2) := by
  have h : ∀ e : Expr, e.eval m c env1 = e.eval m c env2 := by
    intro e
    induction e with
    | var n => exact henv n
    | cast a b e ih => exact congrArg (c a b) ih
    | call r w e ih => exact congrArg (m r w) ih
  exact ⟨h, fun w x => ⟨h _, h _, h _, h _, h _, h _, h _, h _, h _⟩⟩

/-- C7 witness: two evaluations of the f32 arcsine under two pointwise
equal environments agree. -/
theorem c7_determinism_witness :
    (asinTrace .w32 (.var 0)).eval mNaN cId (fun _ => FVal.fin 2)
      = (asinTrace .w32 (.var 0)).eval mNaN cId (fun n => FVal.fin (0 * n + 2)) :=
  ((c7_determinism mNaN cId (fun _ => FVal.fin 2) (fun n => FVal.fin (0 * n + 2))
    (fun n => by simp)).2 .w32 0).2.2.2.1

/-- C8: known fixed points hold at every width, given that the external
routines satisfy them and the casts convert 0 and 1 exactly: sine of
0 radians is 0, cosine of 0 radians is 1, tangent of the width's
representation of pi over 4 is within epsilon of 1, hyperbolic sine of 0
is 0 and hyperbolic cosine of 0 is 1. -/
theorem c8_known_values (m : Rout → Width → FVal → FVal)
    (c : Width → Width → FVal → FVal) (w : Width)
    (hc0 : ∀ a b, c a b (FVal.fin 0) = FVal.fin 0)
    (hc1 : ∀ a b, c a b (FVal.fin 1) = FVal.fin 1)
    (hsin : m .rsin .w64 (FVal.fin 0) = FVal.fin 0)
    (hcos : m .rcos .w64 (FVal.fin 0) = FVal.fin 1)
    (hsinh : ∀ u, m .rsinh u (FVal.fin 0) = FVal.fin 0)
    (hcosh : ∀ u, m .rcosh u (FVal.fin 0) = FVal.fin 1)
    (piw : FVal) (eps : ℚ)
    (htan : FVal.closeB eps (m .rtan .w64 (c w .w64 piw)) (FVal.fin 1) = true)
    (hcback : ∀ v, FVal.closeB eps v (FVal.fin 1) = true →
        FVal.closeB eps (c .w64 w v) (FVal.fin 1) = true) :
    (sinTrace w (.var 0)).eval m c (fun _ => FVal.fin 0) = FVal.fin 0
    ∧ (cosTrace w (.var 0)).eval m c (fun _ => FVal.fin 0) = FVal.fin 1
    ∧ FVal.closeB eps ((tanTrace w (.var 0)).eval m c (fun _ => piw)) (FVal.fin 1) = true
    ∧ (sinhTrace w (.var 0)).eval m c (fun _ => FVal.fin 0) = FVal.fin 0
    ∧ (coshTrace w (.var 0)).eval m c (fun _ => FVal.fin 0) = FVal.fin 1 := by
  refine ⟨?_, ?_, ?_, ?_, ?_⟩
  · show c .w64 w (m .rsin .w64 (c w .w64 (FVal.fin 0))) = FVal.fin 0
    rw [hc0, hsin, hc0]
  · show c .w64 w (m .rcos .w64 (c w .w64 (FVal.fin 0))) = FVal.fin 1
    rw [hc0, hcos, hc1]
  · exact hcback _ htan
  · cases w with
    | w32 => exact hsinh .w32
    | w64 => exact hsinh .w64
    | wfloat =>
      show c .w64 .wfloat (m .rsinh .w64 (c .wfloat .w64 (FVal.fin 0))) = FVal.fin 0
      rw [hc0, hsinh, hc0]
  · cases w with
    | w32 => exact hcosh .w32
    | w64 => exact hcosh .w64
    | wfloat =>
      show c .w64 .wfloat (m .rcosh .w64 (c .wfloat .w64 (FVal.fin 0))) = FVal.fin 1
      rw [hc0, hcosh, hc1]

/-- C8 witness: the fixed points at width f32 under the concrete standard
interpretation of the routines and exact casts, with the tangent input 1
standing for pi over 4 and epsilon 0. -/
theorem c8_known_values_witness :
    (sinTrace .w32 (.var 0)).eval mStd cId (fun _ => FVal.fin 0) = FVal.fin 0
    ∧ (cosTrace .w32 (.var 0)).eval mStd cId (fun _ => FVal.fin 0) = FVal.fin 1
    ∧ FVal.closeB 0 ((tanTrace .w32 (.var 0)).eval mStd cId (fun _ => FVal.fin 1))
        (FVal.fin 1) = true
    ∧ (sinhTrace .w32 (.var 0)).eval mStd cId (fun _ => FVal.fin 0) = FVal.fin 0
    ∧ (coshTrace .w32 (.var 0)).eval mStd cId (fun _ => FVal.fin 0) = FVal.fin 1 :=
  c8_known_values mStd cId .w32 (fun _ _ => rfl) (fun _ _ => rfl) rfl rfl
    (fun _ => rfl) (fun _ => rfl) (FVal.fin 1) 0 (by simp [FVal.closeB, mStd, cId]) (fun _ h => h)

/-- C9: round-trip identities under the idealized model in which the
external routines are the exact real functions and the casts are exact:
for every width, arcsine applied to the raw number produced by sine of an
angle in the closed interval from minus pi over 2 to pi over 2 recovers
the angle, hence recovers it within every nonnegative epsilon; likewise
arccosine after cosine on the interval from 0 to pi, and arctangent after
tangent strictly inside minus pi over 2 to pi over 2. -/
theorem c9_roundtrip (w : Width) (ta tb tc eps : ℝ) (heps : 0 ≤ eps)
    (ha1 : -(Real.pi / 2) ≤ ta) (ha2 : ta ≤ Real.pi / 2)
    (hb1 : 0 ≤ tb) (hb2 : tb ≤ Real.pi)
    (hc1 : -(Real.pi / 2) < tc) (hc2 : tc < Real.pi / 2) :
    |(asinTrace w (sinTrace w (.var 0))).eval mIdeal cIdeal (fun _ => ta) - ta| ≤ eps
    ∧ |(acosTrace w (cosTrace w (.var 0))).eval mIdeal cIdeal (fun _ => tb) - tb| ≤ eps
    ∧ |(atanTrace w (tanTrace w (.var 0))).eval mIdeal cIdeal (fun _ => tc) - tc| ≤ eps := by
  cases w with
  | w32 =>
    refine ⟨?_, ?_, ?_⟩
    · rw [show (asinTrace .w32 (sinTrace .w32 (.var 0))).eval mIdeal cIdeal (fun _ => ta)
          = Real.arcsin (Real.sin ta) from rfl, Real.arcsin_sin ha1 ha2, sub_self, abs_zero]
      exact heps
    · rw [show (acosTrace .w32 (cosTrace .w32 (.var 0))).eval mIdeal cIdeal (fun _ => tb)
          = Real.arccos (Real.cos tb) from rfl, Real.arccos_cos hb1 hb2, sub_self, abs_zero]
      exact heps
    · rw [show (atanTrace .w32 (tanTrace .w32 (.var 0))).eval mIdeal cIdeal (fun _ => tc)
          = Real.arctan (Real.tan tc) from rfl, Real.arctan_tan hc1 hc2, sub_self, abs_zero]
      exact heps
  | w64 =>
    refine ⟨?_, ?_, ?_⟩
    · rw [show (asinTrace .w64 (sinTrace .w64 (.var 0))).eval mIdeal cIdeal (fun _ => ta)
          = Real.arcsin (Real.sin ta) from rfl, Real.arcsin_sin ha1 ha2, sub_self, abs_zero]
      exact heps
    · rw [show (acosTrace .w64 (cosTrace .w64 (.var 0))).eval mIdeal cIdeal (fun _ => tb)
          = Real.arccos (Real.cos tb) from rfl, Real.arccos_cos hb1 hb2, sub_self, abs_zero]
      exact heps
    · rw [show (atanTrace .w64 (tanTrace .w64 (.var 0))).eval mIdeal cIdeal (fun _ => tc)
          = Real.arctan (Real.tan tc) from rfl, Real.arctan_tan hc1 hc2, sub_self, abs_zero]
      exact heps
  | wfloat =>
    refine ⟨?_, ?_, ?_⟩
    · rw [show (asinTrace .wfloat (sinTrace .wfloat (.var 0))).eval mIdeal cIdeal (fun _ => ta)
          = Real.arcsin (Real.sin ta) from rfl, Real.arcsin_sin ha1 ha2, sub_self, abs_zero]
      exact heps
    · rw [show (acosTrace .wfloat (cosTrace .wfloat (.var 0))).eval mIdeal cIdeal (fun _ => tb)
          = Real.arccos (Real.cos tb) from rfl, Real.arccos_cos hb1 hb2, sub_self, abs_zero]
      exact heps
    · rw [show (atanTrace .wfloat (tanTrace .wfloat (.var 0))).eval mIdeal cIdeal (fun _ => tc)
          = Real.arctan (Real.tan tc) from rfl, Real.arctan_tan hc1 hc2, sub_self, abs_zero]
      exact heps

/-- C9 witness: the three round trips at width f32 and angle 0, with
epsilon 0. -/
theorem c9_roundtrip_witness :
    |(asinTrace .w32 (sinTrace .w32 (.var 0))).eval mIdeal cIdeal (fun _ => (0 : ℝ)) - 0| ≤ 0
    ∧ |(acosTrace .w32 (cosTrace .w32 (.var 0))).eval mIdeal cIdeal (fun _ => (0 : ℝ)) - 0| ≤ 0
    ∧ |(atanTrace .w32 (tanTrace .w32 (.var 0))).eval mIdeal cIdeal (fun _ => (0 : ℝ)) - 0| ≤ 0 :=
  c9_roundtrip .w32 0 0 0 0 le_rfl
    (neg_nonpos.mpr Real.pi_div_two_pos.le) Real.pi_div_two_pos.le
    le_rfl Real.pi_pos.le
    (neg_lt_zero.mpr Real.pi_div_two_pos) Real.pi_div_two_pos

end Cgmath
